import Mathlib

/-!
Verification of the PDF-annotation engine of this repository
(src/python/markup_pdf.py and src/api/function_app.py).

Python floats are modelled as rationals; Python lists as Lean lists.
A Python call that raises is modelled as an Option/Except error value.
The two source files duplicate one rendering engine; where their code is
identical (confidence_to_color, generate_distinct_colors, the per-region
rectangle computation, the draw calls) we embed it once, and where they
differ (how the analyzeResult key is accessed, how a color is picked per
key-value-pair index, how errors are re-raised) we embed both variants.
-/

/-- An RGB triple, each channel a rational. -/
abbrev Color := ℚ × ℚ × ℚ

/-- A fitz.Rect, four coordinates. fitz does not normalize on construction. -/
structure Rect where
  x0 : ℚ
  y0 : ℚ
  x1 : ℚ
  y1 : ℚ
deriving DecidableEq, Repr

/-- PyMuPDF computes rect.height as the absolute difference of the y
coordinates. -/
def Rect.height (r : Rect) : ℚ := |r.y1 - r.y0|

/-- Signed area of a Rect, zero exactly for degenerate rectangles. -/
def Rect.area (r : Rect) : ℚ := (r.x1 - r.x0) * (r.y1 - r.y0)

/-- Embeds confidence_to_color of markup_pdf.py (the identical inline
expression appears in function_app.py draw_confidence_indicator, line 43):
if confidence < 0.5: return (1.0, confidence * 2, 0)
else: return ((1.0 - confidence) * 2, 1.0, 0). -/
def confidence_to_color (confidence : ℚ) : Color :=
  if confidence < 1/2 then
    (1, confidence * 2, 0)
  else
    ((1 - confidence) * 2, 1, 0)

/-- Python min(seq): the least element, raising (none) on an empty sequence. -/
def seqMin : List ℚ → Option ℚ
  | [] => none
  | a :: as =>
    match seqMin as with
    | none => some a
    | some m => some (min a m)

/-- Python max(seq): the greatest element, raising (none) on an empty
sequence. -/
def seqMax : List ℚ → Option ℚ
  | [] => none
  | a :: as =>
    match seqMax as with
    | none => some a
    | some m => some (max a m)

/-- Python slicing l[0::2]: every other element starting at index 0. -/
def everyOther : List ℚ → List ℚ
  | [] => []
  | [x] => [x]
  | x :: _ :: rest => x :: everyOther rest

/-- Embeds the inline bounding-rectangle computation of both source files:
points = [point * 72 for point in polygon];
rect = fitz.Rect(min(points[0::2]), min(points[1::2]),
                 max(points[0::2]), max(points[1::2])).
Returns none when a min/max receives an empty sequence (Python ValueError). -/
def polygon_to_rect (polygon : List ℚ) : Option Rect :=
  let points := polygon.map (fun point => point * 72)
  match seqMin (everyOther points), seqMin (everyOther points.tail),
        seqMax (everyOther points), seqMax (everyOther points.tail) with
  | some x0, some y0, some x1, some y1 => some ⟨x0, y0, x1, y1⟩
  | _, _, _, _ => none

/-- A polygon given as a list of (x, y) points, flattened to the alternating
coordinate list the analysis JSON uses. -/
def flattenPoints : List (ℚ × ℚ) → List ℚ
  | [] => []
  | (x, y) :: ps => x :: y :: flattenPoints ps

theorem seqMin_eq_none_iff {l : List ℚ} : seqMin l = none ↔ l = [] := by
  cases l with
  | nil => simp [seqMin]
  | cons a as =>
    simp only [seqMin, List.cons_ne_nil, iff_false]
    cases seqMin as <;> simp

theorem seqMax_eq_none_iff {l : List ℚ} : seqMax l = none ↔ l = [] := by
  cases l with
  | nil => simp [seqMax]
  | cons a as =>
    simp only [seqMax, List.cons_ne_nil, iff_false]
    cases seqMax as <;> simp

theorem seqMin_eq_some_iff {l : List ℚ} {m : ℚ} :
    seqMin l = some m ↔ m ∈ l ∧ ∀ x ∈ l, m ≤ x := by
  induction l generalizing m with
  | nil => simp [seqMin]
  | cons a as ih =>
    cases h : seqMin as with
    | none =>
      have hnil : as = [] := seqMin_eq_none_iff.mp h
      subst hnil
      have hone : seqMin [a] = some a := rfl
      rw [hone]
      simp only [Option.some.injEq, List.mem_singleton, List.forall_mem_singleton]
      constructor
      · rintro rfl
        exact ⟨rfl, fun x hx => le_of_eq hx.symm⟩
      · rintro ⟨rfl, _⟩
        rfl
    | some m0 =>
      simp only [seqMin, h]
      constructor
      · intro hsome
        rw [Option.some.injEq] at hsome
        subst hsome
        obtain ⟨hmem, hle⟩ := ih.mp h
        constructor
        · rcases le_total a m0 with hc | hc
          · rw [min_eq_left hc]; exact List.mem_cons_self a as
          · rw [min_eq_right hc]; exact List.mem_cons_of_mem a hmem
        · intro x hx
          rcases List.mem_cons.mp hx with rfl | hx
          · exact min_le_left _ _
          · exact le_trans (min_le_right a m0) (hle x hx)
      · rintro ⟨hmem, hle⟩
        obtain ⟨hmem0, hle0⟩ := ih.mp h
        have h1 : m ≤ a := hle a (List.mem_cons_self a as)
        have h2 : m ≤ m0 := hle m0 (List.mem_cons_of_mem a hmem0)
        have h3 : min a m0 ≤ m := by
          rcases List.mem_cons.mp hmem with rfl | hmem2
          · exact min_le_left _ _
          · exact le_trans (min_le_right a m0) (hle0 m hmem2)
        exact congrArg some (le_antisymm h3 (le_min h1 h2))

theorem seqMax_eq_some_iff {l : List ℚ} {M : ℚ} :
    seqMax l = some M ↔ M ∈ l ∧ ∀ x ∈ l, x ≤ M := by
  induction l generalizing M with
  | nil => simp [seqMax]
  | cons a as ih =>
    cases h : seqMax as with
    | none =>
      have hnil : as = [] := seqMax_eq_none_iff.mp h
      subst hnil
      have hone : seqMax [a] = some a := rfl
      rw [hone]
      simp only [Option.some.injEq, List.mem_singleton, List.forall_mem_singleton]
      constructor
      · rintro rfl
        exact ⟨rfl, fun x hx => le_of_eq hx⟩
      · rintro ⟨rfl, _⟩
        rfl
    | some m0 =>
      simp only [seqMax, h]
      constructor
      · intro hsome
        rw [Option.some.injEq] at hsome
        subst hsome
        obtain ⟨hmem, hle⟩ := ih.mp h
        constructor
        · rcases le_total a m0 with hc | hc
          · rw [max_eq_right hc]; exact List.mem_cons_of_mem a hmem
          · rw [max_eq_left hc]; exact List.mem_cons_self a as
        · intro x hx
          rcases List.mem_cons.mp hx with rfl | hx
          · exact le_max_left _ _
          · exact le_trans (hle x hx) (le_max_right a m0)
      · rintro ⟨hmem, hle⟩
        obtain ⟨hmem0, hle0⟩ := ih.mp h
        have h1 : a ≤ M := hle a (List.mem_cons_self a as)
        have h2 : m0 ≤ M := hle m0 (List.mem_cons_of_mem a hmem0)
        have h3 : M ≤ max a m0 := by
          rcases List.mem_cons.mp hmem with rfl | hmem2
          · exact le_max_left _ _
          · exact le_trans (hle0 M hmem2) (le_max_right a m0)
        exact congrArg some (le_antisymm (max_le h1 h2) h3)

theorem seqMin_perm {l l2 : List ℚ} (h : l.Perm l2) : seqMin l = seqMin l2 := by
  cases hm : seqMin l with
  | none =>
    have h1 : l = [] := seqMin_eq_none_iff.mp hm
    subst h1
    have : l2 = [] := h.symm.eq_nil
    subst this
    rfl
  | some m =>
    rcases seqMin_eq_some_iff.mp hm with ⟨hmem, hle⟩
    symm
    rw [seqMin_eq_some_iff]
    exact ⟨h.mem_iff.mp hmem, fun x hx => hle x (h.mem_iff.mpr hx)⟩

theorem seqMax_perm {l l2 : List ℚ} (h : l.Perm l2) : seqMax l = seqMax l2 := by
  cases hm : seqMax l with
  | none =>
    have h1 : l = [] := seqMax_eq_none_iff.mp hm
    subst h1
    have : l2 = [] := h.symm.eq_nil
    subst this
    rfl
  | some m =>
    rcases seqMax_eq_some_iff.mp hm with ⟨hmem, hle⟩
    symm
    rw [seqMax_eq_some_iff]
    exact ⟨h.mem_iff.mp hmem, fun x hx => hle x (h.mem_iff.mpr hx)⟩

theorem everyOther_cons (a : ℚ) (l : List ℚ) :
    everyOther (a :: l) = a :: everyOther l.tail := by
  cases l <;> rfl

theorem everyOther_flattenPoints (ps : List (ℚ × ℚ)) :
    everyOther (flattenPoints ps) = ps.map Prod.fst := by
  induction ps with
  | nil => rfl
  | cons p ps ih =>
    obtain ⟨x, y⟩ := p
    simp only [flattenPoints, everyOther, List.map_cons]
    rw [ih]

theorem everyOther_tail_flattenPoints (ps : List (ℚ × ℚ)) :
    everyOther (flattenPoints ps).tail = ps.map Prod.snd := by
  induction ps with
  | nil => rfl
  | cons p ps ih =>
    obtain ⟨x, y⟩ := p
    simp only [flattenPoints, List.tail_cons, List.map_cons]
    rw [everyOther_cons, ih]

theorem everyOther_map (f : ℚ → ℚ) (l : List ℚ) :
    everyOther (l.map f) = (everyOther l).map f ∧
    everyOther (l.map f).tail = (everyOther l.tail).map f := by
  induction l with
  | nil => exact ⟨rfl, rfl⟩
  | cons a l ih =>
    refine ⟨?_, ?_⟩
    · rw [List.map_cons, everyOther_cons, everyOther_cons, List.map_cons, ih.2]
    · rw [List.map_cons, List.tail_cons, List.tail_cons, ih.1]

theorem polygon_to_rect_flatten (ps : List (ℚ × ℚ)) :
    polygon_to_rect (flattenPoints ps) =
      match seqMin ((ps.map Prod.fst).map fun p => p * 72),
            seqMin ((ps.map Prod.snd).map fun p => p * 72),
            seqMax ((ps.map Prod.fst).map fun p => p * 72),
            seqMax ((ps.map Prod.snd).map fun p => p * 72) with
      | some x0, some y0, some x1, some y1 => some ⟨x0, y0, x1, y1⟩
      | _, _, _, _ => none := by
  simp only [polygon_to_rect]
  rw [(everyOther_map _ _).1, (everyOther_map _ _).2,
    everyOther_flattenPoints, everyOther_tail_flattenPoints]

/-- C3 counterexample: on the empty polygon (zero points, hence fewer than 2)
the computation does not return a Rect at all: Python min() raises ValueError
on an empty sequence, modelled as none. -/
theorem C3_counterexample : polygon_to_rect ([] : List ℚ) = none := rfl

/-- C3 (amended): a one-point polygon yields a zero-area Rect without error,
while the empty polygon raises (min of an empty subsequence), modelled as
none. -/
theorem C3_degenerate_polygon :
    (∀ x y : ℚ, polygon_to_rect [x, y] = some ⟨x * 72, y * 72, x * 72, y * 72⟩ ∧
      (Rect.mk (x * 72) (y * 72) (x * 72) (y * 72)).area = 0) ∧
    polygon_to_rect ([] : List ℚ) = none := by
  refine ⟨fun x y => ⟨rfl, ?_⟩, rfl⟩
  simp [Rect.area]

/-- C7: the Geometry Mapper is invariant under permutations of the
(x, y) points of the polygon, and every Rect it produces satisfies x0 ≤ x1 and y0 ≤ y1. -/
theorem C7_geometry_mapper :
    (∀ ps qs : List (ℚ × ℚ), ps.Perm qs →
      polygon_to_rect (flattenPoints ps) = polygon_to_rect (flattenPoints qs)) ∧
    (∀ (l : List ℚ) (r : Rect), polygon_to_rect l = some r →
      r.x0 ≤ r.x1 ∧ r.y0 ≤ r.y1) := by
  constructor
  · intro ps qs hperm
    have hf : ((ps.map Prod.fst).map fun p => p * 72).Perm
        ((qs.map Prod.fst).map fun p => p * 72) := (hperm.map Prod.fst).map _
    have hs : ((ps.map Prod.snd).map fun p => p * 72).Perm
        ((qs.map Prod.snd).map fun p => p * 72) := (hperm.map Prod.snd).map _
    rw [polygon_to_rect_flatten ps, polygon_to_rect_flatten qs,
      seqMin_perm hf, seqMin_perm hs, seqMax_perm hf, seqMax_perm hs]
  · intro l r h
    simp only [polygon_to_rect] at h
    split at h
    next x0 y0 x1 y1 h1 h2 h3 h4 =>
      obtain ⟨hm0, hlbx⟩ := seqMin_eq_some_iff.mp h1
      obtain ⟨hm1, hlby⟩ := seqMin_eq_some_iff.mp h2
      obtain ⟨hM0, hubx⟩ := seqMax_eq_some_iff.mp h3
      obtain ⟨hM1, huby⟩ := seqMax_eq_some_iff.mp h4
      obtain rfl : (⟨x0, y0, x1, y1⟩ : Rect) = r := by injection h
      exact ⟨hlbx x1 hM0, hlby y1 hM1⟩
    next => exact Option.noConfusion h

theorem C7_geometry_mapper_witness :
    polygon_to_rect (flattenPoints [((0 : ℚ), (0 : ℚ)), (1, 2)]) =
      polygon_to_rect (flattenPoints [((1 : ℚ), (2 : ℚ)), (0, 0)]) ∧
    ((Rect.mk 0 0 72 144).x0 ≤ (Rect.mk 0 0 72 144).x1 ∧
     (Rect.mk 0 0 72 144).y0 ≤ (Rect.mk 0 0 72 144).y1) :=
  ⟨C7_geometry_mapper.1 _ _ (List.Perm.swap _ _ _),
   C7_geometry_mapper.2 [0, 0, 1, 2] (Rect.mk 0 0 72 144)
     (by norm_num [polygon_to_rect, seqMin, seqMax, everyOther])⟩

/-- C1 counterexample: at confidence exactly 0.5 the colorizer takes the
else branch and returns ((1 - 0.5) * 2, 1.0, 0) = (1.0, 1.0, 0), which is
yellow, not the claimed (0.0, 1.0, 0.0). -/
theorem C1_counterexample :
    confidence_to_color (1/2) ≠ ((0 : ℚ), (1 : ℚ), (0 : ℚ)) := by
  intro hcontra
  simp only [confidence_to_color, if_neg (lt_irrefl (1/2 : ℚ)),
    Prod.mk.injEq] at hcontra
  norm_num at hcontra

/-- C1 (amended): at c = 0.5 exactly the colorizer returns (1.0, 1.0, 0.0),
and it is continuous at c = 0.5: the two branch formulas agree there, so the
piecewise function has matching one-sided limits. -/
theorem C1_colorizer_continuous_at_half :
    confidence_to_color (1/2) = (1, 1, 0) ∧
    ContinuousAt confidence_to_color (1/2) := by
  constructor
  · norm_num [confidence_to_color]
  · have hlo : Continuous (fun c : ℚ => ((1 : ℚ), c * 2, (0 : ℚ))) := by fun_prop
    have hhi : Continuous (fun c : ℚ => ((1 - c) * 2, (1 : ℚ), (0 : ℚ))) := by
      fun_prop
    have h1 : ContinuousWithinAt confidence_to_color (Set.Iic (1/2)) (1/2) := by
      apply hlo.continuousWithinAt.congr
      · intro y hy
        simp only [Set.mem_Iic] at hy
        rcases lt_or_eq_of_le hy with hlt | heq
        · simp only [confidence_to_color]
          rw [if_pos hlt]
        · subst heq
          norm_num [confidence_to_color]
      · norm_num [confidence_to_color]
    have h2 : ContinuousWithinAt confidence_to_color (Set.Ici (1/2)) (1/2) := by
      apply hhi.continuousWithinAt.congr
      · intro y hy
        simp only [Set.mem_Ici] at hy
        simp only [confidence_to_color]
        rw [if_neg (not_lt.mpr hy)]
      · norm_num [confidence_to_color]
    have hu := h1.union h2
    rw [Set.Iic_union_Ici] at hu
    exact (continuousWithinAt_univ confidence_to_color _).mp hu

/-- C5: on [0,1] the colorizer returns (1, 2c, 0) below 0.5 and
(2(1-c), 1, 0) at or above 0.5; in particular c = 0 gives red (1,0,0) and
c = 1 gives green (0,1,0). -/
theorem C5_colorizer_formula (c : ℚ) (h0 : 0 ≤ c) (h1 : c ≤ 1) :
    (c < 1/2 → confidence_to_color c = (1, 2 * c, 0)) ∧
    (1/2 ≤ c → confidence_to_color c = (2 * (1 - c), 1, 0)) ∧
    confidence_to_color 0 = (1, 0, 0) ∧
    confidence_to_color 1 = (0, 1, 0) := by
  refine ⟨?_, ?_, by norm_num [confidence_to_color],
    by norm_num [confidence_to_color]⟩
  · intro hlt
    simp only [confidence_to_color]
    rw [if_pos hlt, mul_comm c 2]
  · intro hge
    simp only [confidence_to_color]
    rw [if_neg (not_lt.mpr hge), mul_comm (1 - c) 2]

theorem C5_colorizer_formula_witness :
    (((3 : ℚ)/4 < 1/2 → confidence_to_color (3/4) = (1, 2 * (3/4), 0)) ∧
     ((1 : ℚ)/2 ≤ 3/4 → confidence_to_color (3/4) = (2 * (1 - 3/4), 1, 0)) ∧
     confidence_to_color 0 = (1, 0, 0) ∧
     confidence_to_color 1 = (0, 1, 0)) :=
  C5_colorizer_formula (3/4) (by norm_num) (by norm_num)

/-- C10: the colorizer is total and never clamps: below 0 the green channel
2c is negative, above 1 the red channel 2(1-c) is negative. -/
theorem C10_no_clamping (c : ℚ) :
    (c < 0 → (confidence_to_color c).2.1 = 2 * c ∧
      (confidence_to_color c).2.1 < 0) ∧
    (1 < c → (confidence_to_color c).1 = 2 * (1 - c) ∧
      (confidence_to_color c).1 < 0) := by
  constructor
  · intro hneg
    have hlt : c < 1/2 := by linarith
    simp only [confidence_to_color]
    rw [if_pos hlt]
    exact ⟨mul_comm c 2, by show c * 2 < 0; linarith⟩
  · intro hgt
    have hge : ¬ c < 1/2 := by push_neg; linarith
    simp only [confidence_to_color]
    rw [if_neg hge]
    exact ⟨mul_comm (1 - c) 2, by show (1 - c) * 2 < 0; linarith⟩

theorem C10_no_clamping_witness :
    (((confidence_to_color (-1)).2.1 = 2 * (-1) ∧
      (confidence_to_color (-1)).2.1 < 0) ∧
     ((confidence_to_color 2).1 = 2 * (1 - 2) ∧
      (confidence_to_color 2).1 < 0)) :=
  ⟨(C10_no_clamping (-1)).1 (by norm_num),
   (C10_no_clamping 2).2 (by norm_num)⟩

/-- A color whose three channels all lie in [0, 1]. -/
def inUnit (c : Color) : Prop :=
  0 ≤ c.1 ∧ c.1 ≤ 1 ∧ 0 ≤ c.2.1 ∧ c.2.1 ≤ 1 ∧ 0 ≤ c.2.2 ∧ c.2.2 ≤ 1

/-- Embeds colorsys.hsv_to_rgb from the Python standard library, which both
source files call. Python int() truncates toward zero; the callers only pass
nonnegative hues, where truncation and floor agree, so the embedding uses
floor. -/
def hsv_to_rgb (h s v : ℚ) : Color :=
  if s = 0 then (v, v, v)
  else
    let i : ℤ := ⌊h * 6⌋
    let f : ℚ := h * 6 - (i : ℚ)
    let p := v * (1 - s)
    let q := v * (1 - s * f)
    let t := v * (1 - s * (1 - f))
    let im := i % 6
    if im = 0 then (v, t, p)
    else if im = 1 then (q, v, p)
    else if im = 2 then (p, q, v)
    else if im = 3 then (p, v, t)
    else if im = 4 then (t, p, v)
    else (q, p, v)

theorem mul_unit_bound {v w : ℚ} (hv0 : 0 ≤ v) (hv1 : v ≤ 1) (hw0 : 0 ≤ w)
    (hw1 : w ≤ 1) : 0 ≤ v * w ∧ v * w ≤ 1 :=
  ⟨mul_nonneg hv0 hw0, by nlinarith⟩

theorem hsv_to_rgb_mem_unit (h s v : ℚ) (hs0 : 0 ≤ s) (hs1 : s ≤ 1)
    (hv0 : 0 ≤ v) (hv1 : v ≤ 1) : inUnit (hsv_to_rgb h s v) := by
  by_cases hs : s = 0
  · subst hs
    simp only [hsv_to_rgb, if_pos rfl]
    exact ⟨hv0, hv1, hv0, hv1, hv0, hv1⟩
  · have hf0 : (0 : ℚ) ≤ h * 6 - ((⌊h * 6⌋ : ℤ) : ℚ) :=
      sub_nonneg.mpr (Int.floor_le (h * 6))
    have hf1 : h * 6 - ((⌊h * 6⌋ : ℤ) : ℚ) ≤ 1 := by
      have := Int.lt_floor_add_one (h * 6)
      linarith
    have hsf := mul_unit_bound hs0 hs1 hf0 hf1
    have hp := mul_unit_bound hv0 hv1
      (by linarith : (0 : ℚ) ≤ 1 - s) (by linarith : 1 - s ≤ 1)
    have hq := mul_unit_bound hv0 hv1
      (by linarith [hsf.2] : (0 : ℚ) ≤ 1 - s * (h * 6 - ((⌊h * 6⌋ : ℤ) : ℚ)))
      (by linarith [hsf.1] : 1 - s * (h * 6 - ((⌊h * 6⌋ : ℤ) : ℚ)) ≤ 1)
    have hsf2 := mul_unit_bound hs0 hs1
      (by linarith : (0 : ℚ) ≤ 1 - (h * 6 - ((⌊h * 6⌋ : ℤ) : ℚ)))
      (by linarith : 1 - (h * 6 - ((⌊h * 6⌋ : ℤ) : ℚ)) ≤ 1)
    have ht := mul_unit_bound hv0 hv1
      (by linarith [hsf2.2] :
        (0 : ℚ) ≤ 1 - s * (1 - (h * 6 - ((⌊h * 6⌋ : ℤ) : ℚ))))
      (by linarith [hsf2.1] :
        1 - s * (1 - (h * 6 - ((⌊h * 6⌋ : ℤ) : ℚ))) ≤ 1)
    simp only [hsv_to_rgb, if_neg hs]
    split_ifs
    · exact ⟨hv0, hv1, ht.1, ht.2, hp.1, hp.2⟩
    · exact ⟨hq.1, hq.2, hv0, hv1, hp.1, hp.2⟩
    · exact ⟨hp.1, hp.2, hq.1, hq.2, hv0, hv1⟩
    · exact ⟨hp.1, hp.2, hv0, hv1, ht.1, ht.2⟩
    · exact ⟨ht.1, ht.2, hp.1, hp.2, hv0, hv1⟩
    · exact ⟨hq.1, hq.2, hp.1, hp.2, hv0, hv1⟩

/-- Embeds generate_distinct_colors (identical in both source files).
The two random.uniform draws of iteration i are modelled by jitter oracles
satJ and valJ; theorems constrain them to the uniform ranges
[-0.2, 0.2] and [-0.1, 0.1]. For n = 0 the Python loop body (and with it the
division i / n) is never executed and the empty list is returned. -/
def generate_distinct_colors (n : ℕ) (satJ valJ : ℕ → ℚ) : List Color :=
  (List.range n).map fun i : ℕ =>
    hsv_to_rgb ((i : ℚ) / (n : ℚ)) (7/10 + satJ i) (9/10 + valJ i)

/-- C6: the Color Generator returns exactly n colors, the i-th having hue
i/n before jitter, every channel in [0, 1]; n = 0 gives the empty list. -/
theorem C6_color_generator (n : ℕ) (satJ valJ : ℕ → ℚ)
    (hsat : ∀ i, -(2/10) ≤ satJ i ∧ satJ i ≤ 2/10)
    (hval : ∀ i, -(1/10) ≤ valJ i ∧ valJ i ≤ 1/10) :
    (generate_distinct_colors n satJ valJ).length = n ∧
    (∀ i : ℕ, i < n → (generate_distinct_colors n satJ valJ)[i]? =
      some (hsv_to_rgb ((i : ℚ) / (n : ℚ)) (7/10 + satJ i) (9/10 + valJ i))) ∧
    (∀ c ∈ generate_distinct_colors n satJ valJ, inUnit c) ∧
    generate_distinct_colors 0 satJ valJ = [] := by
  refine ⟨by simp [generate_distinct_colors], ?_, ?_, rfl⟩
  · intro i hi
    simp [generate_distinct_colors, List.getElem?_range, hi]
  · intro c hc
    simp only [generate_distinct_colors, List.mem_map, List.mem_range] at hc
    obtain ⟨i, hi, rfl⟩ := hc
    obtain ⟨hs1, hs2⟩ := hsat i
    obtain ⟨hv1, hv2⟩ := hval i
    exact hsv_to_rgb_mem_unit _ _ _ (by linarith) (by linarith)
      (by linarith) (by linarith)

theorem C6_color_generator_witness :
    ((generate_distinct_colors 2 (fun _ => 0) (fun _ => 0)).length = 2 ∧
     (∀ i : ℕ, i < 2 →
       (generate_distinct_colors 2 (fun _ => 0) (fun _ => 0))[i]? =
       some (hsv_to_rgb ((i : ℚ) / (((2 : ℕ) : ℚ))) (7/10 + 0) (9/10 + 0))) ∧
     (∀ c ∈ generate_distinct_colors 2 (fun _ => 0) (fun _ => 0), inUnit c) ∧
     generate_distinct_colors 0 (fun _ => 0) (fun _ => 0) = []) :=
  C6_color_generator 2 (fun _ => 0) (fun _ => 0)
    (fun _ => by norm_num) (fun _ => by norm_num)

/-- A boundingRegions entry: pageNumber and polygon are accessed with
mandatory subscripts in the source. -/
structure Region where
  pageNumber : ℕ
  polygon : List ℚ
deriving DecidableEq, Repr

/-- A key or value span; the source reads boundingRegions with
.get(..., []), so the field is optional. -/
structure TextSpan where
  boundingRegions : Option (List Region)
deriving DecidableEq, Repr

/-- A keyValuePairs entry: key, value and confidence are all read
optionally (membership test for key, .get with default 0.5 for confidence). -/
structure KVPair where
  key : Option TextSpan
  value : Option TextSpan
  confidence : Option ℚ
deriving DecidableEq, Repr

/-- A table cell: kind read via .get (default None), boundingRegions via
.get(..., []). -/
structure Cell where
  kind : Option String
  boundingRegions : Option (List Region)
deriving DecidableEq, Repr

/-- A table: cells read via .get(..., []). -/
structure Table where
  cells : Option (List Cell)
deriving DecidableEq, Repr

/-- A paragraph: boundingRegions via .get(..., []). -/
structure Paragraph where
  boundingRegions : Option (List Region)
deriving DecidableEq, Repr

/-- The analyzeResult object; all three collections are read with
.get(..., []) in both sources, so they are optional. -/
structure AnalyzeResult where
  keyValuePairs : Option (List KVPair)
  tables : Option (List Table)
  paragraphs : Option (List Paragraph)
deriving DecidableEq, Repr

/-- The top-level analysis JSON: process_pdf reads analyzeResult with
.get(..., {}), mark_up_document subscripts it directly. -/
structure JsonData where
  analyzeResult : Option AnalyzeResult
deriving DecidableEq, Repr

/-- One page.draw_rect call, recording the arguments passed at the call
site (absent keyword arguments recorded as none). -/
structure DrawOp where
  rect : Rect
  color : Color
  fill : Option Color
  fillOpacity : Option ℚ
  width : Option ℚ
deriving DecidableEq, Repr

/-- The exceptions a pipeline run can surface. -/
inductive RenderErr where
  | invalidDocument
  | keyError
  | emptySequence
  | saveError
  | processingError
deriving DecidableEq, Repr

/-- Sequencing of a Python for loop that appends draw operations and whose
body may raise: the first exception aborts the whole loop. -/
def exFlatMap {α β : Type} (f : α → Except RenderErr (List β)) :
    List α → Except RenderErr (List β)
  | [] => .ok []
  | a :: as =>
    match f a with
    | .error e => .error e
    | .ok ops =>
      match exFlatMap f as with
      | .error e => .error e
      | .ok rest => .ok (ops ++ rest)

/-- Embeds draw_confidence_indicator (markup_pdf.py lines 44-59; the
function_app.py copy inlines confidence_to_color but issues the identical
draw call). Returns the single draw operation issued on the page. -/
def draw_confidence_indicator (rect : Rect) (confidence : ℚ) : DrawOp :=
  let bar_width : ℚ := 2
  let bar_height : ℚ := rect.height
  let bar_rect : Rect :=
    ⟨rect.x1 + 2, rect.y0, rect.x1 + 2 + bar_width, rect.y0 + bar_height⟩
  let color := confidence_to_color confidence
  ⟨bar_rect, color, some color, none, none⟩

/-- Processing of one key bounding region on one page (0-based pageIdx):
draw only when region.pageNumber == page_num + 1; fill at opacity 0.2 plus a
width-1.0 border. Error when the polygon makes min() raise. -/
def renderKeyRegion (pageIdx : ℕ) (color : Color) (region : Region) :
    Except RenderErr (List DrawOp) :=
  if region.pageNumber = pageIdx + 1 then
    match polygon_to_rect region.polygon with
    | none => .error .emptySequence
    | some rect =>
      .ok [⟨rect, color, some color, some (2/10), none⟩,
           ⟨rect, color, none, none, some 1⟩]
  else .ok []

/-- Processing of one value bounding region on one page: fill at opacity
0.1, width-0.5 border, then the confidence indicator. -/
def renderValueRegion (pageIdx : ℕ) (color : Color) (confidence : ℚ)
    (region : Region) : Except RenderErr (List DrawOp) :=
  if region.pageNumber = pageIdx + 1 then
    match polygon_to_rect region.polygon with
    | none => .error .emptySequence
    | some rect =>
      .ok [⟨rect, color, some color, some (1/10), none⟩,
           ⟨rect, color, none, none, some (1/2)⟩,
           draw_confidence_indicator rect confidence]
  else .ok []

/-- Processing of one table-cell bounding region on one page: columnHeader
cells get a navy fill and border, other cells a gray border only. -/
def renderCellRegion (pageIdx : ℕ) (kind : Option String) (region : Region) :
    Except RenderErr (List DrawOp) :=
  if region.pageNumber = pageIdx + 1 then
    match polygon_to_rect region.polygon with
    | none => .error .emptySequence
    | some rect =>
      if kind = some "columnHeader" then
        .ok [⟨rect, (0, 0, 8/10), some (0, 0, 8/10), some (1/10), none⟩,
             ⟨rect, (0, 0, 8/10), none, none, some 1⟩]
      else
        .ok [⟨rect, (1/2, 1/2, 1/2), none, none, some (1/2)⟩]
  else .ok []

/-- Processing of one paragraph bounding region on one page: light gray
fill at opacity 0.05, width-0.3 gray border. -/
def renderParagraphRegion (pageIdx : ℕ) (region : Region) :
    Except RenderErr (List DrawOp) :=
  if region.pageNumber = pageIdx + 1 then
    match polygon_to_rect region.polygon with
    | none => .error .emptySequence
    | some rect =>
      .ok [⟨rect, (9/10, 9/10, 9/10), some (9/10, 9/10, 9/10),
              some (1/20), none⟩,
           ⟨rect, (1/2, 1/2, 1/2), none, none, some (3/10)⟩]
  else .ok []

/-- One iteration of the key-value-pair loop on one page: key regions first,
then value regions with the confidence indicator; confidence defaults to
0.5 when absent. ip carries the enumerate index used for the color. -/
def renderKVPair (pageIdx : ℕ) (colorAt : ℕ → Color) (ip : ℕ × KVPair) :
    Except RenderErr (List DrawOp) :=
  let color := colorAt ip.1
  let confidence := ip.2.confidence.getD (1/2)
  match (match ip.2.key with
         | some ts =>
           exFlatMap (renderKeyRegion pageIdx color) (ts.boundingRegions.getD [])
         | none => .ok []) with
  | .error e => .error e
  | .ok keyOps =>
    match (match ip.2.value with
           | some ts =>
             exFlatMap (renderValueRegion pageIdx color confidence)
               (ts.boundingRegions.getD [])
           | none => .ok []) with
    | .error e => .error e
    | .ok valueOps => .ok (keyOps ++ valueOps)

/-- The cell loop of one table on one page. -/
def renderCell (pageIdx : ℕ) (cell : Cell) : Except RenderErr (List DrawOp) :=
  exFlatMap (renderCellRegion pageIdx cell.kind) (cell.boundingRegions.getD [])

/-- The table loop on one page. -/
def renderTable (pageIdx : ℕ) (table : Table) :
    Except RenderErr (List DrawOp) :=
  exFlatMap (renderCell pageIdx) (table.cells.getD [])

/-- The paragraph loop on one page. -/
def renderParagraph (pageIdx : ℕ) (para : Paragraph) :
    Except RenderErr (List DrawOp) :=
  exFlatMap (renderParagraphRegion pageIdx) (para.boundingRegions.getD [])

/-- One iteration of the page loop: key-value pairs (enumerated for color
lookup), then tables, then paragraphs, in source order. -/
def renderPage (pageIdx : ℕ) (colorAt : ℕ → Color) (ar : AnalyzeResult) :
    Except RenderErr (List DrawOp) :=
  match exFlatMap (renderKVPair pageIdx colorAt)
      (ar.keyValuePairs.getD []).enum with
  | .error e => .error e
  | .ok kvOps =>
    match exFlatMap (renderTable pageIdx) (ar.tables.getD []) with
    | .error e => .error e
    | .ok tableOps =>
      match exFlatMap (renderParagraph pageIdx) (ar.paragraphs.getD []) with
      | .error e => .error e
      | .ok paraOps => .ok (kvOps ++ tableOps ++ paraOps)

/-- The page loop over page indices 0 .. page_count - 1; each draw operation
is tagged with the 0-based index of the page it lands on. -/
def renderPages (pageCount : ℕ) (colorAt : ℕ → Color) (ar : AnalyzeResult) :
    Except RenderErr (List (ℕ × DrawOp)) :=
  exFlatMap (fun pageIdx =>
    match renderPage pageIdx colorAt ar with
    | .error e => .error e
    | .ok ops => .ok (ops.map (Prod.mk pageIdx))) (List.range pageCount)

/-- The external world of one pipeline run: whether fitz.open succeeds,
whether doc.save succeeds, the page count of the opened document, and the
jitter drawn by random.uniform inside generate_distinct_colors. -/
structure Env where
  openOk : Bool
  saveOk : Bool
  pageCount : ℕ
  satJ : ℕ → ℚ
  valJ : ℕ → ℚ

/-- Outcome of one pipeline run plus the final state of the document
resource. -/
structure RunResult where
  outcome : Except RenderErr (List (ℕ × DrawOp))
  docOpened : Bool
  docClosed : Bool

/-- Embeds process_pdf of function_app.py (lines 46-142). The try block
opens the document, reads analyzeResult with .get(..., {}), generates one
color per key-value pair (colors[idx], always in range since idx enumerates
the same list; modelled with getD), renders every page, saves, closes and
returns. Any exception is caught, logged and re-raised as
ValueError("Error processing PDF") - with doc.close() never reached. -/
def process_pdf (env : Env) (json : JsonData) : RunResult :=
  if env.openOk = false then
    ⟨.error .processingError, false, false⟩
  else
    let ar := json.analyzeResult.getD ⟨none, none, none⟩
    let kv_pairs := ar.keyValuePairs.getD []
    let colors := generate_distinct_colors kv_pairs.length env.satJ env.valJ
    match renderPages env.pageCount (fun idx => colors.getD idx (0, 0, 0)) ar with
    | .error _ => ⟨.error .processingError, true, false⟩
    | .ok ops =>
      if env.saveOk then ⟨.ok ops, true, true⟩
      else ⟨.error .processingError, true, false⟩

/-- Embeds mark_up_document of markup_pdf.py (lines 61-154). Differences
from process_pdf: analyzeResult is a mandatory subscript (KeyError when the
key is absent - raised after fitz.open, so the document is left open), the
color generator is only invoked when key-value pairs exist, the color index
is taken modulo len(colors), and the except block logs and re-raises the
original exception; doc.close() is only reached on the success path. -/
def mark_up_document (env : Env) (json : JsonData) : RunResult :=
  if env.openOk = false then
    ⟨.error .invalidDocument, false, false⟩
  else
    match json.analyzeResult with
    | none => ⟨.error .keyError, true, false⟩
    | some ar =>
      let kv_pairs := ar.keyValuePairs.getD []
      let colors := if kv_pairs.length > 0 then
          generate_distinct_colors kv_pairs.length env.satJ env.valJ
        else []
      match renderPages env.pageCount
          (fun idx => colors.getD (idx % colors.length) (0, 0, 0)) ar with
      | .error e => ⟨.error e, true, false⟩
      | .ok ops =>
        if env.saveOk then ⟨.ok ops, true, true⟩
        else ⟨.error .saveError, true, false⟩

/-- Whether an Except value is a success. -/
def exceptIsOk {α : Type} : Except RenderErr α → Bool
  | .ok _ => true
  | .error _ => false

/-- C2 counterexample: a 1-page document whose save raises: process_pdf
propagates the error with the document opened but never closed - the except
block re-raises without any doc.close() (no finally, no context manager). -/
theorem C2_counterexample :
    (process_pdf ⟨true, false, 1, fun _ => 0, fun _ => 0⟩
        ⟨some ⟨none, none, none⟩⟩).docOpened = true ∧
    (process_pdf ⟨true, false, 1, fun _ => 0, fun _ => 0⟩
        ⟨some ⟨none, none, none⟩⟩).docClosed = false ∧
    (process_pdf ⟨true, false, 1, fun _ => 0, fun _ => 0⟩
        ⟨some ⟨none, none, none⟩⟩).outcome = .error .processingError :=
  ⟨rfl, rfl, rfl⟩

/-- C2 (amended): each pipeline closes the document exactly on the success
path - the handle ends closed iff the run succeeds. An exception raised
during rendering or saving propagates with the document still open. -/
theorem C2_close_iff_success (env : Env) (json : JsonData) :
    ((process_pdf env json).docClosed = true ↔
      exceptIsOk (process_pdf env json).outcome = true) ∧
    ((mark_up_document env json).docClosed = true ↔
      exceptIsOk (mark_up_document env json).outcome = true) ∧
    (env.openOk = true → env.saveOk = false →
      (process_pdf env json).docOpened = true ∧
      (process_pdf env json).docClosed = false) := by
  refine ⟨?_, ?_, ?_⟩
  · unfold process_pdf
    split
    · simp [exceptIsOk]
    · dsimp only
      split
      all_goals try dsimp only
      all_goals try split
      all_goals simp [exceptIsOk]
  · unfold mark_up_document
    split
    · simp [exceptIsOk]
    · dsimp only
      split
      all_goals try dsimp only
      all_goals try split
      all_goals try dsimp only
      all_goals try split
      all_goals simp [exceptIsOk]
  · intro hopen hsave
    unfold process_pdf
    rw [hopen, if_neg (by decide : ¬(true = false))]
    dsimp only
    split
    all_goals try split
    all_goals simp_all

theorem exFlatMap_ok_nil {α β : Type} (f : α → Except RenderErr (List β))
    (l : List α) (h : ∀ a ∈ l, f a = .ok []) : exFlatMap f l = .ok [] := by
  induction l with
  | nil => rfl
  | cons a as ih =>
    simp only [exFlatMap]
    rw [h a (List.mem_cons_self a as),
      ih (fun b hb => h b (List.mem_cons_of_mem a hb))]
    rfl

theorem renderPage_empty (pageIdx : ℕ) (colorAt : ℕ → Color) :
    renderPage pageIdx colorAt ⟨none, none, none⟩ = .ok [] := rfl

theorem renderPages_empty (pageCount : ℕ) (colorAt : ℕ → Color) :
    renderPages pageCount colorAt ⟨none, none, none⟩ = .ok [] := by
  unfold renderPages
  apply exFlatMap_ok_nil
  intro p _
  rw [renderPage_empty]
  rfl

/-- C4 counterexample: a JSON whose analyzeResult key is absent makes
mark_up_document raise a KeyError (the analyzeResult access is a mandatory
subscript) instead of rendering nothing. -/
theorem C4_counterexample :
    (mark_up_document ⟨true, true, 1, fun _ => 0, fun _ => 0⟩
        ⟨none⟩).outcome = .error .keyError := rfl

/-- C4 (amended): process_pdf defaults a missing analyzeResult to an empty
object and, like both pipelines on an explicitly empty analyzeResult,
succeeds with zero draw operations (output identical to the input document);
mark_up_document however raises a KeyError when the analyzeResult key itself
is missing. Missing keyValuePairs/tables/paragraphs inside analyzeResult are
defaulted to empty collections by both pipelines. -/
theorem C4_missing_structure (pc : ℕ) (sj vj : ℕ → ℚ) :
    (process_pdf ⟨true, true, pc, sj, vj⟩ ⟨none⟩).outcome = .ok [] ∧
    (process_pdf ⟨true, true, pc, sj, vj⟩
        ⟨some ⟨none, none, none⟩⟩).outcome = .ok [] ∧
    (mark_up_document ⟨true, true, pc, sj, vj⟩
        ⟨some ⟨none, none, none⟩⟩).outcome = .ok [] ∧
    (mark_up_document ⟨true, true, pc, sj, vj⟩
        ⟨none⟩).outcome = .error .keyError := by
  refine ⟨?_, ?_, ?_, rfl⟩
  · simp [process_pdf, renderPages_empty]
  · simp [process_pdf, renderPages_empty]
  · simp [mark_up_document, renderPages_empty]

theorem not_ok_nonempty_of_eq_nil {r : Except RenderErr (List DrawOp)}
    (h : r = .ok []) : ¬ ∃ ops, r = .ok ops ∧ ops ≠ [] := by
  rintro ⟨ops, hops, hne⟩
  rw [h] at hops
  injection hops with h2
  exact hne h2.symm

/-- C8: a bounding region produces drawn rectangles on the page with 0-based
index pageIdx iff its pageNumber equals pageIdx + 1, for each of the four
region kinds (key, value, table cell, paragraph). Each region of an entity
is processed independently against each page, so an entity with regions on
several pages draws once per matching page. -/
theorem C8_region_page_match (pageIdx : ℕ) (color : Color) (confidence : ℚ)
    (kind : Option String) (region : Region) (rect : Rect)
    (hpoly : polygon_to_rect region.polygon = some rect) :
    ((∃ ops, renderKeyRegion pageIdx color region = .ok ops ∧ ops ≠ []) ↔
      region.pageNumber = pageIdx + 1) ∧
    ((∃ ops, renderValueRegion pageIdx color confidence region = .ok ops ∧
      ops ≠ []) ↔ region.pageNumber = pageIdx + 1) ∧
    ((∃ ops, renderCellRegion pageIdx kind region = .ok ops ∧ ops ≠ []) ↔
      region.pageNumber = pageIdx + 1) ∧
    ((∃ ops, renderParagraphRegion pageIdx region = .ok ops ∧ ops ≠ []) ↔
      region.pageNumber = pageIdx + 1) := by
  by_cases hpn : region.pageNumber = pageIdx + 1
  · refine ⟨⟨fun _ => hpn, fun _ => ?_⟩, ⟨fun _ => hpn, fun _ => ?_⟩,
      ⟨fun _ => hpn, fun _ => ?_⟩, ⟨fun _ => hpn, fun _ => ?_⟩⟩
    · have heq : renderKeyRegion pageIdx color region =
          .ok [⟨rect, color, some color, some (2/10), none⟩,
               ⟨rect, color, none, none, some 1⟩] := by
        simp [renderKeyRegion, hpn, hpoly]
      exact ⟨_, heq, by simp⟩
    · have heq : renderValueRegion pageIdx color confidence region =
          .ok [⟨rect, color, some color, some (1/10), none⟩,
               ⟨rect, color, none, none, some (1/2)⟩,
               draw_confidence_indicator rect confidence] := by
        simp [renderValueRegion, hpn, hpoly]
      exact ⟨_, heq, by simp⟩
    · by_cases hk : kind = some "columnHeader"
      · have heq : renderCellRegion pageIdx kind region =
            .ok [⟨rect, (0, 0, 8/10), some (0, 0, 8/10), some (1/10), none⟩,
                 ⟨rect, (0, 0, 8/10), none, none, some 1⟩] := by
          simp [renderCellRegion, hpn, hpoly, hk]
        exact ⟨_, heq, by simp⟩
      · have heq : renderCellRegion pageIdx kind region =
            .ok [⟨rect, (1/2, 1/2, 1/2), none, none, some (1/2)⟩] := by
          simp [renderCellRegion, hpn, hpoly, hk]
        exact ⟨_, heq, by simp⟩
    · have heq : renderParagraphRegion pageIdx region =
          .ok [⟨rect, (9/10, 9/10, 9/10), some (9/10, 9/10, 9/10),
                  some (1/20), none⟩,
               ⟨rect, (1/2, 1/2, 1/2), none, none, some (3/10)⟩] := by
        simp [renderParagraphRegion, hpn, hpoly]
      exact ⟨_, heq, by simp⟩
  · have hkey : renderKeyRegion pageIdx color region = .ok [] := by
      simp [renderKeyRegion, hpn]
    have hval : renderValueRegion pageIdx color confidence region = .ok [] := by
      simp [renderValueRegion, hpn]
    have hcell : renderCellRegion pageIdx kind region = .ok [] := by
      simp [renderCellRegion, hpn]
    have hpar : renderParagraphRegion pageIdx region = .ok [] := by
      simp [renderParagraphRegion, hpn]
    exact ⟨⟨fun hex => ((not_ok_nonempty_of_eq_nil hkey) hex).elim,
        fun hcontra => absurd hcontra hpn⟩,
      ⟨fun hex => ((not_ok_nonempty_of_eq_nil hval) hex).elim,
        fun hcontra => absurd hcontra hpn⟩,
      ⟨fun hex => ((not_ok_nonempty_of_eq_nil hcell) hex).elim,
        fun hcontra => absurd hcontra hpn⟩,
      ⟨fun hex => ((not_ok_nonempty_of_eq_nil hpar) hex).elim,
        fun hcontra => absurd hcontra hpn⟩⟩

theorem C8_region_page_match_witness :
    (∃ ops, renderValueRegion 0 (1, 0, 0) (1/2) ⟨1, [0, 0, 1, 1]⟩ = .ok ops ∧
      ops ≠ []) ↔ (Region.mk 1 [0, 0, 1, 1]).pageNumber = 0 + 1 :=
  (C8_region_page_match 0 (1, 0, 0) (1/2) none ⟨1, [0, 0, 1, 1]⟩
    ⟨0, 0, 72, 72⟩
    (by norm_num [polygon_to_rect, seqMin, seqMax, everyOther])).2.1

/-- Recognizes the confidence-bar draw call: solid fill in the stroke color,
no fill_opacity and no width argument; of all draw calls the engine issues,
only the draw_confidence_indicator call has this shape. -/
def isConfidenceBar (op : DrawOp) : Bool :=
  decide (op.fill = some op.color) && decide (op.fillOpacity = none) &&
    decide (op.width = none)

/-- C9: a matched value region draws exactly its fill, its border, and one
confidence bar: a solid-filled rectangle 2 points to the right of the value
rectangle, of width 2, spanning y from y0 to y0 + height, filled with the
Confidence Colorizer output for the confidence of the pair; a matched key region
draws its two operations and no confidence bar. -/
theorem C9_confidence_bar (pageIdx : ℕ) (color : Color) (confidence : ℚ)
    (region : Region) (rect : Rect)
    (hpn : region.pageNumber = pageIdx + 1)
    (hpoly : polygon_to_rect region.polygon = some rect) :
    renderValueRegion pageIdx color confidence region =
      .ok [⟨rect, color, some color, some (1/10), none⟩,
           ⟨rect, color, none, none, some (1/2)⟩,
           draw_confidence_indicator rect confidence] ∧
    draw_confidence_indicator rect confidence =
      ⟨⟨rect.x1 + 2, rect.y0, rect.x1 + 4, rect.y0 + rect.height⟩,
        confidence_to_color confidence, some (confidence_to_color confidence),
        none, none⟩ ∧
    (rect.x1 + 4) - (rect.x1 + 2) = 2 ∧
    ([⟨rect, color, some color, some (1/10), none⟩,
      ⟨rect, color, none, none, some (1/2)⟩,
      draw_confidence_indicator rect confidence] : List DrawOp).countP
        isConfidenceBar = 1 ∧
    (∀ ops, renderKeyRegion pageIdx color region = .ok ops →
      ops.countP isConfidenceBar = 0) := by
  have hbar : draw_confidence_indicator rect confidence =
      ⟨⟨rect.x1 + 2, rect.y0, rect.x1 + 4, rect.y0 + rect.height⟩,
        confidence_to_color confidence, some (confidence_to_color confidence),
        none, none⟩ := by
    simp only [draw_confidence_indicator, Rect.height]
    have harith : rect.x1 + 2 + 2 = rect.x1 + 4 := by ring
    rw [harith]
  refine ⟨by simp [renderValueRegion, hpn, hpoly], hbar, by ring, ?_, ?_⟩
  · rw [hbar]
    simp [List.countP_cons, isConfidenceBar]
  · intro ops hops
    have heq : renderKeyRegion pageIdx color region =
        .ok [⟨rect, color, some color, some (2/10), none⟩,
             ⟨rect, color, none, none, some 1⟩] := by
      simp [renderKeyRegion, hpn, hpoly]
    rw [heq] at hops
    injection hops with h2
    subst h2
    simp [List.countP_cons, isConfidenceBar]

theorem C9_confidence_bar_witness :
    ([⟨⟨0, 0, 72, 72⟩, ((1 : ℚ), (0 : ℚ), (0 : ℚ)), some (1, 0, 0),
        some (1/10), none⟩,
      ⟨⟨0, 0, 72, 72⟩, (1, 0, 0), none, none, some (1/2)⟩,
      draw_confidence_indicator ⟨0, 0, 72, 72⟩ (9/10)] :
        List DrawOp).countP isConfidenceBar = 1 :=
  (C9_confidence_bar 0 (1, 0, 0) (9/10) ⟨1, [0, 0, 1, 1]⟩ ⟨0, 0, 72, 72⟩ rfl
    (by norm_num [polygon_to_rect, seqMin, seqMax, everyOther])).2.2.2.1

theorem C2_close_iff_success_witness :
    ((process_pdf ⟨true, true, 0, fun _ => 0, fun _ => 0⟩
        ⟨none⟩).docClosed = true ↔
      exceptIsOk (process_pdf ⟨true, true, 0, fun _ => 0, fun _ => 0⟩
        ⟨none⟩).outcome = true) :=
  (C2_close_iff_success ⟨true, true, 0, fun _ => 0, fun _ => 0⟩ ⟨none⟩).1

theorem C3_degenerate_polygon_witness :
    polygon_to_rect [(1 : ℚ), 2] =
      some ⟨1 * 72, 2 * 72, 1 * 72, 2 * 72⟩ :=
  (C3_degenerate_polygon.1 1 2).1

theorem C4_missing_structure_witness :
    (process_pdf ⟨true, true, 1, fun _ => 0, fun _ => 0⟩
        ⟨none⟩).outcome = .ok [] :=
  (C4_missing_structure 1 (fun _ => 0) (fun _ => 0)).1
